import Mathlib

/-!
Shallow embedding of `src/deploy.py` (a sequential deployment orchestrator).

The script defines two pieces of logic:
* `run_phase_script(script_path, console)` (lines 12-29): spawns
  `bash script_path` with stderr merged into stdout, streams each output
  line to the console (stripped of surrounding whitespace), waits for the
  child, and returns `returncode == 0`.
* `main()` (lines 31-78): iterates a fixed list of phases; for each phase
  it sets the status string to "🔄 Running", re-renders the live table,
  runs the script, then sets "✅ Complete" (and continues) or "❌ Failed"
  (re-renders, prints an abort message and calls `exit(1)`).

The child process is external: we model it by an environment `Env` mapping
the spawned command path to the list of lines the child writes on the
merged stream and its exit code.  Observable behaviour is recorded as a
trace of `Event`s, and the value of `phases_data` after every in-place
status mutation is recorded in a `states` list.
-/

/-- One entry of `phases_data` (src/deploy.py lines 38-48): a dict with
keys `name`, `script` and `status`; `status` holds the literal status
strings used by the script ("⏳ Pending", "🔄 Running", "✅ Complete",
"❌ Failed"). -/
structure Phase where
  name : String
  script : String
  status : String
deriving DecidableEq, Repr

/-- Behaviour of the child process spawned by
`subprocess.Popen(["bash", script_path], stdout=PIPE, stderr=STDOUT, ...)`:
the lines it writes to the merged stdout/stderr stream (each as yielded by
iterating `process.stdout`, i.e. with its trailing newline) and its exit
code (`process.returncode`; an `Int`, since a signal-terminated child is
reported by Python as a negative code). -/
structure ScriptResult where
  lines : List String
  returncode : Int
deriving DecidableEq, Repr

/-- The environment: what the child process spawned for a given path does.
Spawning itself cannot fail as long as `bash` exists, because the command
run is `["bash", script_path]` — a missing script is seen by `bash`, not
by `Popen`. -/
abbrev Env := String → ScriptResult

/-- Observable events of a run, in order:
`consolePrint` for `console.print` of banners and messages (markup such as
`[bold blue]...[/bold blue]` is presentation and elided), `spawn` for
`subprocess.Popen`, `sinkLine` for the per-line
`console.print(f"  [dim]{line.strip()}[/dim]")` — the payload is the
delivered line, i.e. `line.strip()` — `wait` for `process.wait()`
observing the exit code, and `render` for `live.update(make_table())`
(the payload is the rendered table rows). -/
inductive Event where
  | consolePrint (s : String)
  | spawn (path : String)
  | sinkLine (s : String)
  | wait (code : Int)
  | render (rows : List (String × String))
deriving DecidableEq, Repr

/-- `os.path.basename`: the part after the last slash. -/
def basename (p : String) : String := (p.splitOn "/").getLastD p

/-- Embedding of `run_phase_script` (src/deploy.py lines 12-29).  It prints
a header, spawns `bash script_path`, streams each line of the merged
output to the sink as `line.strip()` (Python `str.strip()`, modelled by
`String.trim`; both remove leading and trailing whitespace including the
newline), waits for the child, and returns `process.returncode == 0`.
There is no error path: the function is total and any non-zero exit comes
back as the ordinary value `false`. -/
def run_phase_script (env : Env) (script_path : String) : List Event × Bool :=
  let r := env script_path
  (Event.consolePrint ("Running " ++ basename script_path ++ "...") ::
     Event.spawn script_path ::
     (r.lines.map (fun line => Event.sinkLine line.trim) ++ [Event.wait r.returncode]),
   r.returncode == 0)

/-- Result of the phase loop: the final value of `phases_data`, the event
trace, the snapshots of `phases_data` after each status mutation, and the
process exit code (0 for falling off the loop, 1 for `exit(1)`). -/
structure LoopResult where
  phases : List Phase
  events : List Event
  states : List (List Phase)
  exitCode : Int
deriving Repr

/-- `make_table` (src/deploy.py lines 50-56): the rendered rows, one
`(name, status)` pair per phase, in list order. -/
def make_table (ps : List Phase) : List (String × String) :=
  ps.map (fun phase => (phase.name, phase.status))

/-- Embedding of the `for i, phase in enumerate(phases_data)` loop inside
the `Live` block (src/deploy.py lines 59-76).  `done` is the already
processed prefix of `phases_data` (mutated in place in the source) and the
argument list is the remaining suffix.  Each iteration: set the status to
"🔄 Running", `live.update(make_table())`, print the starting message, run
the script; on success set "✅ Complete", print, `live.update` and
continue; on failure set "❌ Failed", `live.update`, print the abort
message and `exit(1)`.  `os.path.join("scripts", phase["script"])` is
`"scripts/" ++ script`.  The `time.sleep(0.5)` is timing only and elided. -/
def runPhases (env : Env) (done : List Phase) : List Phase → LoopResult
  | [] => ⟨done, [], [], 0⟩
  | p :: rest =>
    let script_path := "scripts/" ++ p.script
    let running : Phase := { p with status := "🔄 Running" }
    let afterRunning := done ++ running :: rest
    let startEvents := [Event.render (make_table afterRunning),
                        Event.consolePrint ("Starting Phase: " ++ p.name)]
    let run := run_phase_script env script_path
    if run.2 then
      let complete : Phase := { p with status := "✅ Complete" }
      let afterComplete := done ++ complete :: rest
      let tail := runPhases env (done ++ [complete]) rest
      ⟨tail.phases,
       startEvents ++ run.1 ++
         [Event.consolePrint ("Phase " ++ p.name ++ " Complete."),
          Event.render (make_table afterComplete)] ++ tail.events,
       afterRunning :: afterComplete :: tail.states,
       tail.exitCode⟩
    else
      let failed : Phase := { p with status := "❌ Failed" }
      let afterFailed := done ++ failed :: rest
      ⟨afterFailed,
       startEvents ++ run.1 ++
         [Event.render (make_table afterFailed),
          Event.consolePrint ("Phase " ++ p.name ++ " Failed. Aborting deployment.")],
       [afterRunning, afterFailed],
       1⟩

/-- The `with Live(make_table(), ...)` block of `main` (src/deploy.py
lines 58-76) over an arbitrary phase list: an initial render of the table
as given, then the phase loop. -/
def deploy (env : Env) (phases : List Phase) : LoopResult :=
  let result := runPhases env [] phases
  { result with events := Event.render (make_table phases) :: result.events }

/-- `phases_data` (src/deploy.py lines 38-48): the fixed phase list, every
status initially "⏳ Pending". -/
def phases_data : List Phase :=
  [⟨"Preflight Checks", "01-preflight-checks.sh", "⏳ Pending"⟩,
   ⟨"Infrastructure", "02-infrastructure.sh", "⏳ Pending"⟩,
   ⟨"K3s Base Install", "03-k3s-base-install.sh", "⏳ Pending"⟩,
   ⟨"Secure Runtimes", "04-secure-runtimes.sh", "⏳ Pending"⟩,
   ⟨"GPU Operator", "05-gpu-operator.sh", "⏳ Pending"⟩,
   ⟨"Nexus Framework", "06-nexus-framework.sh", "⏳ Pending"⟩,
   ⟨"RBaaS Integration", "07-rbaas-integration.sh", "⏳ Pending"⟩,
   ⟨"Observability", "08-observability.sh", "⏳ Pending"⟩,
   ⟨"Validation", "09-validation.sh", "⏳ Pending"⟩]

/-- `main` (src/deploy.py lines 31-78; the name `main` is reserved in
Lean): banner print, config load (opaque to the orchestrator, not
modelled), the `Live` block over `phases_data`, and the final banner —
which is only reached when no phase failed, since a failure calls
`exit(1)` inside the loop. -/
def mainRun (env : Env) : LoopResult :=
  let result := deploy env phases_data
  { result with events :=
      Event.consolePrint "Nexus Sandbox Framework Deployment" :: result.events ++
        (if result.exitCode == 0
         then [Event.consolePrint "Deployment Orchestration Complete!"] else []) }

/-- The lines delivered to the sink, in trace order. -/
def sinkLines (t : List Event) : List String :=
  t.filterMap (fun e => match e with | Event.sinkLine s => some s | _ => none)

/-- The paths of the spawned child processes, in trace order. -/
def spawns (t : List Event) : List String :=
  t.filterMap (fun e => match e with | Event.spawn path => some path | _ => none)

/-- The tables rendered by `live.update`, in trace order. -/
def renders (t : List Event) : List (List (String × String)) :=
  t.filterMap (fun e => match e with | Event.render rows => some rows | _ => none)

/-- The success signal the loop branches on for a phase: the boolean
returned by `run_phase_script` for the joined script path. -/
def phaseOk (env : Env) (p : Phase) : Bool :=
  (run_phase_script env ("scripts/" ++ p.script)).2

/-- How many phases of a snapshot carry the status "🔄 Running". -/
def runningCount (s : List Phase) : Nat :=
  s.countP (fun p => p.status == "🔄 Running")

/-- The per-phase status transitions permitted by the state machine
Pending → Running → (Complete or Failed): stay put, start, succeed, or
fail.  Complete and Failed admit no outgoing edge other than staying. -/
def statusStepB (a b : String) : Bool :=
  a == b || (a == "⏳ Pending" && b == "🔄 Running") ||
    (a == "🔄 Running" && b == "✅ Complete") ||
    (a == "🔄 Running" && b == "❌ Failed")

/-- Two consecutive snapshots are related when they have the same length
and every position makes a permitted status transition. -/
def stepAllB : List Phase → List Phase → Bool
  | [], [] => true
  | p :: s, q :: t => statusStepB p.status q.status && stepAllB s t
  | _, _ => false

/-- Every consecutive pair of snapshots in the list is related by
`stepAllB`. -/
def chainB : List (List Phase) → Bool
  | [] => true
  | [_] => true
  | s :: t :: rest => stepAllB s t && chainB (t :: rest)

/-! ### Helper lemmas about the trace extractors -/

theorem sinkLines_append (a b : List Event) :
    sinkLines (a ++ b) = sinkLines a ++ sinkLines b := by
  simp [sinkLines, List.filterMap_append]

theorem spawns_append (a b : List Event) :
    spawns (a ++ b) = spawns a ++ spawns b := by
  simp [spawns, List.filterMap_append]

theorem renders_append (a b : List Event) :
    renders (a ++ b) = renders a ++ renders b := by
  simp [renders, List.filterMap_append]

theorem sinkLines_sink_map : ∀ ls : List String,
    sinkLines (ls.map (fun line => Event.sinkLine line.trim)) = ls.map String.trim
  | [] => rfl
  | a :: t => by
      have ih := sinkLines_sink_map t
      show a.trim :: sinkLines (t.map (fun line => Event.sinkLine line.trim))
        = a.trim :: t.map String.trim
      rw [ih]

theorem spawns_sink_map : ∀ ls : List String,
    spawns (ls.map (fun line => Event.sinkLine line.trim)) = []
  | [] => rfl
  | a :: t => by
      have ih := spawns_sink_map t
      show spawns (t.map (fun line => Event.sinkLine line.trim)) = []
      rw [ih]

theorem sinkLines_run (env : Env) (script_path : String) :
    sinkLines (run_phase_script env script_path).1 =
      ((env script_path).lines).map String.trim := by
  show sinkLines (((env script_path).lines).map (fun line => Event.sinkLine line.trim) ++
      [Event.wait (env script_path).returncode]) = _
  rw [sinkLines_append, sinkLines_sink_map,
    show sinkLines [Event.wait (env script_path).returncode] = [] from rfl,
    List.append_nil]

theorem spawns_run (env : Env) (script_path : String) :
    spawns (run_phase_script env script_path).1 = [script_path] := by
  show script_path ::
      spawns (((env script_path).lines).map (fun line => Event.sinkLine line.trim) ++
        [Event.wait (env script_path).returncode]) = [script_path]
  rw [spawns_append, spawns_sink_map, List.nil_append,
    show spawns [Event.wait (env script_path).returncode] = [] from rfl]

theorem run_getLast (env : Env) (script_path : String) :
    ((run_phase_script env script_path).1).getLast? =
      some (Event.wait (env script_path).returncode) := by
  have h : (run_phase_script env script_path).1 =
      (Event.consolePrint ("Running " ++ basename script_path ++ "...") ::
        Event.spawn script_path ::
        ((env script_path).lines).map (fun line => Event.sinkLine line.trim)) ++
        [Event.wait (env script_path).returncode] := by
    simp [run_phase_script]
  rw [h, List.getLast?_concat]

/-! ### C2, C3, C9: properties of the phase runner -/

/-- C2: the success signal returned by the phase runner is `true` exactly
when the exit code of the child process is 0; any non-zero exit comes back
as the ordinary value `false` of the total function `run_phase_script`
(there is no raising code path in it). -/
theorem run_phase_script_success_iff (env : Env) (script_path : String) :
    (run_phase_script env script_path).2 = true ↔
      (env script_path).returncode = 0 := by
  simp [run_phase_script]

/-- C3: for a script whose merged output is the list `lines` (N lines),
the sink receives exactly the N lines in emission order (`sinkLines` of
the runner trace is `lines.map String.trim`, so exactly N calls, in
order), and the observation of the exit (`process.wait`) is the last
event of the trace — hence every sink call precedes it. -/
theorem run_phase_script_streams (env : Env) (script_path : String) :
    sinkLines (run_phase_script env script_path).1 =
        ((env script_path).lines).map String.trim ∧
      (sinkLines (run_phase_script env script_path).1).length =
        ((env script_path).lines).length ∧
      ((run_phase_script env script_path).1).getLast? =
        some (Event.wait (env script_path).returncode) :=
  ⟨sinkLines_run env script_path,
   by rw [sinkLines_run env script_path]; simp,
   run_getLast env script_path⟩

/-- C9: the line delivered by the i-th sink call is the i-th emitted line
with leading and trailing whitespace (the newline included) removed —
`line.strip()` in the source, `String.trim` here — not the verbatim
emitted line. -/
theorem sink_delivers_stripped (env : Env) (script_path : String) (i : Nat) :
    (sinkLines (run_phase_script env script_path).1).get? i =
      (((env script_path).lines).get? i).map String.trim := by
  rw [sinkLines_run env script_path]
  simp

/-! ### C1, C8: concrete scenarios of the phase loop -/

/-- Environment for the four-phase scenario: the scripts of A, B and D
print one line and exit 0; the script of C prints one line and exits 2. -/
def envC1 : Env := fun path =>
  if path == "scripts/C.sh" then ⟨["phase C failing\n"], 2⟩ else ⟨["ok\n"], 0⟩

/-- The four-phase list of the scenario, each phase initially Pending as
the orchestrator creates them. -/
def phasesC1 : List Phase :=
  [⟨"A", "A.sh", "⏳ Pending"⟩, ⟨"B", "B.sh", "⏳ Pending"⟩,
   ⟨"C", "C.sh", "⏳ Pending"⟩, ⟨"D", "D.sh", "⏳ Pending"⟩]

/-- C1: for the phase list A(ok), B(ok), C(fails with exit 2), D(ok), the
final statuses are Complete, Complete, Failed, Pending; the overall exit
status is nonzero; and the script of D is never spawned. -/
theorem deploy_abcd_scenario :
    (deploy envC1 phasesC1).phases.map Phase.status =
        ["✅ Complete", "✅ Complete", "❌ Failed", "⏳ Pending"] ∧
      (deploy envC1 phasesC1).exitCode ≠ 0 ∧
      "scripts/D.sh" ∉ spawns (deploy envC1 phasesC1).events := by
  refine ⟨by decide, by decide, by decide⟩

/-- C8: for the empty phase list the loop body never runs: the exit
status is 0, no script is spawned, and the only render is the initial
empty table. -/
theorem deploy_empty (env : Env) :
    (deploy env []).exitCode = 0 ∧
      spawns (deploy env []).events = [] ∧
      renders (deploy env []).events = [make_table []] :=
  ⟨rfl, rfl, rfl⟩

/-! ### C4: the first script path does not exist

The source spawns `["bash", script_path]` (src/deploy.py line 16): the
spawn itself succeeds whenever `bash` exists, so a missing script is not
a launch failure and no exception reaches `run_phase_script`.  The child
`bash` reports the missing file on stderr — merged into the pipe by
`stderr=subprocess.STDOUT` — and exits with code 127.  There is no
`LaunchError` (or any raising path) anywhere in `src/deploy.py`. -/

/-- Environment in which every script path is missing: the spawned `bash`
writes its standard one-line error message to the merged stream and exits
127 (the behaviour of `bash <path>` for a nonexistent path). -/
def envMissing : Env := fun path =>
  ⟨["bash: " ++ path ++ ": No such file or directory\n"], 127⟩

/-- A deployment whose first (and only) phase has a missing script. -/
def phasesMissing : List Phase := [⟨"First", "00-missing.sh", "⏳ Pending"⟩]

/-- C4 counterexample: when the first script path does not exist, the sink
receives `bash`'s error-message line, so the number of lines delivered to
the sink is 1, not 0 as claimed; and the runner returns the ordinary
failure value `false` instead of failing with a `LaunchError` (the
embedded `run_phase_script` is total — the source has no raising path). -/
theorem deploy_missing_counterexample :
    (sinkLines (deploy envMissing phasesMissing).events).length = 1 ∧
      (sinkLines (deploy envMissing phasesMissing).events).length ≠ 0 ∧
      (run_phase_script envMissing "scripts/00-missing.sh").2 = false := by
  refine ⟨by decide, by decide, by decide⟩

/-- C4 amended: if the first phase's script path does not resolve to an
existing file, the spawned `bash` exits 127 after printing its error
message; the runner reports this as an ordinary failed outcome (no
`LaunchError` exists in the code), the phase's terminal status is Failed,
the overall exit status is nonzero (1), and exactly the one `bash`
error-message line (stripped of its newline) — not zero lines — is
delivered to the sink. -/
theorem deploy_missing_scenario :
    (deploy envMissing phasesMissing).phases.map Phase.status = ["❌ Failed"] ∧
      (deploy envMissing phasesMissing).exitCode = 1 ∧
      (run_phase_script envMissing "scripts/00-missing.sh").2 = false ∧
      sinkLines (deploy envMissing phasesMissing).events =
        [("bash: " ++ "scripts/" ++ "00-missing.sh" ++
            ": No such file or directory\n").trim] := by
  refine ⟨by decide, by decide, by decide, rfl⟩

/-! ### General lemmas about the phase loop -/

/-- The exit code of the loop: 0 when the runner succeeds for every phase
of the remaining list, else 1 (the argument of `exit(1)`). -/
theorem runPhases_exit (env : Env) : ∀ (todo done : List Phase),
    (runPhases env done todo).exitCode = if todo.all (phaseOk env) then 0 else 1
  | [], _ => rfl
  | p :: rest, done => by
    have ih := runPhases_exit env rest (done ++ [{p with status := "✅ Complete"}])
    cases hc : (run_phase_script env ("scripts/" ++ p.script)).2 with
    | false => simp [runPhases, hc, phaseOk, List.all_cons]
    | true => simp [runPhases, hc, phaseOk, List.all_cons, ih]

/-- The loop only rewrites status fields: the name and script of every
entry of the final list, and hence its length and order, agree with
`done ++ todo`. -/
theorem runPhases_frame (env : Env) : ∀ (todo done : List Phase),
    (runPhases env done todo).phases.map (fun p => (p.name, p.script)) =
      (done ++ todo).map (fun p => (p.name, p.script))
  | [], _ => by simp [runPhases]
  | p :: rest, done => by
    have ih := runPhases_frame env rest (done ++ [{p with status := "✅ Complete"}])
    cases hc : (run_phase_script env ("scripts/" ++ p.script)).2 with
    | false => simp [runPhases, hc]
    | true =>
      have h2 : (runPhases env done (p :: rest)).phases =
          (runPhases env (done ++ [{p with status := "✅ Complete"}]) rest).phases := by
        simp [runPhases, hc]
      rw [h2, ih]
      simp

theorem spawns_nil : spawns [] = [] := rfl

theorem spawns_cons_consolePrint (s : String) (t : List Event) :
    spawns (Event.consolePrint s :: t) = spawns t := rfl

theorem spawns_cons_render (r : List (String × String)) (t : List Event) :
    spawns (Event.render r :: t) = spawns t := rfl

theorem spawns_cons_wait (c : Int) (t : List Event) :
    spawns (Event.wait c :: t) = spawns t := rfl

theorem spawns_cons_sinkLine (s : String) (t : List Event) :
    spawns (Event.sinkLine s :: t) = spawns t := rfl

theorem spawns_cons_spawn (p : String) (t : List Event) :
    spawns (Event.spawn p :: t) = p :: spawns t := rfl

/-- The scripts spawned by the loop, in order, are exactly the joined
paths of the phases whose runner succeeds up to the first failing phase,
that failing phase included — no script after the first failure is ever
spawned. -/
theorem runPhases_spawns (env : Env) : ∀ (todo done : List Phase),
    spawns (runPhases env done todo).events =
      ((todo.takeWhile (phaseOk env)) ++
          ((todo.dropWhile (phaseOk env)).head?).toList).map
        (fun p => "scripts/" ++ p.script)
  | [], _ => rfl
  | p :: rest, done => by
    have ih := runPhases_spawns env rest (done ++ [{p with status := "✅ Complete"}])
    cases hc : (run_phase_script env ("scripts/" ++ p.script)).2 with
    | false =>
      have hp : phaseOk env p = false := hc
      simp [runPhases, hc, spawns_append, spawns_run, spawns_nil,
        spawns_cons_consolePrint, spawns_cons_render, spawns_cons_wait,
        spawns_cons_sinkLine, spawns_cons_spawn,
        List.takeWhile_cons, List.dropWhile_cons, hp]
    | true =>
      have hp : phaseOk env p = true := hc
      simp [runPhases, hc, spawns_append, spawns_run, spawns_nil,
        spawns_cons_consolePrint, spawns_cons_render, spawns_cons_wait,
        spawns_cons_sinkLine, spawns_cons_spawn,
        List.takeWhile_cons, List.dropWhile_cons, hp, ih]

theorem runningCount_append (a b : List Phase) :
    runningCount (a ++ b) = runningCount a + runningCount b := by
  simp [runningCount, List.countP_append]

theorem runningCount_cons (p : Phase) (s : List Phase) :
    runningCount (p :: s) =
      (if p.status == "🔄 Running" then 1 else 0) + runningCount s := by
  simp [runningCount, List.countP_cons]
  cases h : (p.status == "🔄 Running") <;> simp [h, Nat.add_comm]

theorem runningCount_eq_zero (s : List Phase)
    (h : ∀ p ∈ s, p.status ≠ "🔄 Running") : runningCount s = 0 := by
  simp only [runningCount, List.countP_eq_zero]
  intro p hp
  simpa using h p hp

theorem statusStepB_refl (a : String) : statusStepB a a = true := by
  simp [statusStepB]

theorem stepAllB_refl : ∀ s : List Phase, stepAllB s s = true
  | [] => rfl
  | p :: t => by simp [stepAllB, statusStepB_refl, stepAllB_refl t]

theorem stepAllB_append : ∀ (s₁ t₁ s₂ t₂ : List Phase),
    stepAllB s₁ t₁ = true → stepAllB s₂ t₂ = true →
    stepAllB (s₁ ++ s₂) (t₁ ++ t₂) = true
  | [], [], _, _, _, h₂ => h₂
  | [], _ :: _, _, _, h₁, _ => by simp [stepAllB] at h₁
  | _ :: _, [], _, _, h₁, _ => by simp [stepAllB] at h₁
  | p :: s, q :: t, s₂, t₂, h₁, h₂ => by
      simp only [stepAllB, Bool.and_eq_true] at h₁
      simp only [List.cons_append, stepAllB, Bool.and_eq_true]
      exact ⟨h₁.1, stepAllB_append s t s₂ t₂ h₁.2 h₂⟩

/-- One in-place status mutation at a single position is a permitted step
for the whole snapshot when the status transition itself is permitted. -/
theorem stepAllB_middle (done rest : List Phase) (a b : Phase)
    (h : statusStepB a.status b.status = true) :
    stepAllB (done ++ a :: rest) (done ++ b :: rest) = true :=
  stepAllB_append done done (a :: rest) (b :: rest) (stepAllB_refl done)
    (by simp [stepAllB, h, stepAllB_refl rest])

theorem chainB_cons_cons (a b : List Phase) (rest : List (List Phase)) :
    chainB (a :: b :: rest) = (stepAllB a b && chainB (b :: rest)) := rfl

/-- C5 part 1, loop form: when the already processed prefix is all
Complete and the remaining phases are all Pending, every snapshot taken
after a status mutation has at most one Running phase. -/
theorem runPhases_states_running (env : Env) : ∀ (todo done : List Phase),
    (∀ p ∈ done, p.status = "✅ Complete") →
    (∀ p ∈ todo, p.status = "⏳ Pending") →
    ∀ s ∈ (runPhases env done todo).states, runningCount s ≤ 1
  | [], _, _, _ => by simp [runPhases]
  | p :: rest, done, hd, ht => by
    have hdone0 : runningCount done = 0 :=
      runningCount_eq_zero done (fun q hq => by rw [hd q hq]; decide)
    have hrest0 : runningCount rest = 0 :=
      runningCount_eq_zero rest
        (fun q hq => by rw [ht q (List.mem_cons_of_mem _ hq)]; decide)
    cases hc : (run_phase_script env ("scripts/" ++ p.script)).2 with
    | false =>
      have key : (runPhases env done (p :: rest)).states =
          [done ++ { p with status := "🔄 Running" } :: rest,
           done ++ { p with status := "❌ Failed" } :: rest] := by
        simp [runPhases, hc]
      rw [key]
      intro s hs
      simp only [List.mem_cons, List.not_mem_nil, or_false] at hs
      rcases hs with rfl | rfl
      · rw [runningCount_append, hdone0, runningCount_cons, hrest0]; simp
      · rw [runningCount_append, hdone0, runningCount_cons, hrest0]; simp
    | true =>
      have key : (runPhases env done (p :: rest)).states =
          (done ++ { p with status := "🔄 Running" } :: rest) ::
            (done ++ { p with status := "✅ Complete" } :: rest) ::
            (runPhases env (done ++ [{ p with status := "✅ Complete" }]) rest).states := by
        simp [runPhases, hc]
      rw [key]
      intro s hs
      simp only [List.mem_cons] at hs
      rcases hs with rfl | rfl | hs
      · rw [runningCount_append, hdone0, runningCount_cons, hrest0]; simp
      · rw [runningCount_append, hdone0, runningCount_cons, hrest0]; simp
      · exact runPhases_states_running env rest
          (done ++ [{ p with status := "✅ Complete" }])
          (by intro q hq
              rcases List.mem_append.mp hq with hq | hq
              · exact hd q hq
              · simp only [List.mem_singleton] at hq; rw [hq])
          (fun q hq => ht q (List.mem_cons_of_mem _ hq)) s hs

/-- C6, loop form: when the remaining phases are all Pending, every
consecutive pair of snapshots (starting from the current value of the
phase list) is related position by position by the permitted status
transitions. -/
theorem runPhases_states_chain (env : Env) : ∀ (todo done : List Phase),
    (∀ p ∈ todo, p.status = "⏳ Pending") →
    chainB ((done ++ todo) :: (runPhases env done todo).states) = true
  | [], _, _ => rfl
  | p :: rest, done, ht => by
    have hpend : p.status = "⏳ Pending" := ht p (List.mem_cons_self p rest)
    cases hc : (run_phase_script env ("scripts/" ++ p.script)).2 with
    | false =>
      have key : (runPhases env done (p :: rest)).states =
          [done ++ { p with status := "🔄 Running" } :: rest,
           done ++ { p with status := "❌ Failed" } :: rest] := by
        simp [runPhases, hc]
      rw [key, chainB_cons_cons, chainB_cons_cons]
      simp only [Bool.and_eq_true]
      refine ⟨stepAllB_middle done rest _ _ ?_, stepAllB_middle done rest _ _ ?_, rfl⟩
      · rw [show ({ p with status := "🔄 Running" } : Phase).status = "🔄 Running" from rfl,
          hpend]; decide
      · show statusStepB "🔄 Running" "❌ Failed" = true
        decide
    | true =>
      have key : (runPhases env done (p :: rest)).states =
          (done ++ { p with status := "🔄 Running" } :: rest) ::
            (done ++ { p with status := "✅ Complete" } :: rest) ::
            (runPhases env (done ++ [{ p with status := "✅ Complete" }]) rest).states := by
        simp [runPhases, hc]
      have ih := runPhases_states_chain env rest
        (done ++ [{ p with status := "✅ Complete" }])
        (fun q hq => ht q (List.mem_cons_of_mem _ hq))
      rw [List.append_assoc, List.singleton_append] at ih
      rw [key, chainB_cons_cons, chainB_cons_cons]
      simp only [Bool.and_eq_true]
      refine ⟨stepAllB_middle done rest _ _ ?_, stepAllB_middle done rest _ _ ?_, ih⟩
      · rw [show ({ p with status := "🔄 Running" } : Phase).status = "🔄 Running" from rfl,
          hpend]; decide
      · show statusStepB "🔄 Running" "✅ Complete" = true
        decide

/-! ### C5, C6, C7, C10: invariants of the deploy run -/

/-- C5: starting from an all-Pending phase list, every reachable state of
the run — the initial list and every snapshot after a status mutation —
has at most one phase with status Running; and the scripts spawned are
exactly those of the successful prefix plus the first failing phase, so
once a phase has transitioned to Failed no later phase's script is ever
invoked. -/
theorem deploy_running_invariant (env : Env) (phases : List Phase)
    (h : ∀ p ∈ phases, p.status = "⏳ Pending") :
    (∀ s ∈ phases :: (deploy env phases).states, runningCount s ≤ 1) ∧
      spawns (deploy env phases).events =
        ((phases.takeWhile (phaseOk env)) ++
            ((phases.dropWhile (phaseOk env)).head?).toList).map
          (fun p => "scripts/" ++ p.script) := by
  constructor
  · intro s hs
    rcases List.mem_cons.mp hs with rfl | hs
    · have h0 : runningCount s = 0 :=
        runningCount_eq_zero s (fun q hq => by rw [h q hq]; decide)
      omega
    · exact runPhases_states_running env phases [] (by simp) h s hs
  · rw [show (deploy env phases).events =
        Event.render (make_table phases) :: (runPhases env [] phases).events from rfl,
      spawns_cons_render]
    exact runPhases_spawns env phases []

/-- C5 witness: the invariant instantiated at the concrete four-phase
scenario (A ok, B ok, C fails, D ok). -/
theorem deploy_running_invariant_witness :
    (∀ p ∈ phasesC1, p.status = "⏳ Pending") ∧
      ((∀ s ∈ phasesC1 :: (deploy envC1 phasesC1).states, runningCount s ≤ 1) ∧
        spawns (deploy envC1 phasesC1).events =
          ((phasesC1.takeWhile (phaseOk envC1)) ++
              ((phasesC1.dropWhile (phaseOk envC1)).head?).toList).map
            (fun p => "scripts/" ++ p.script)) :=
  ⟨by decide, deploy_running_invariant envC1 phasesC1 (by decide)⟩

/-- C6: starting from an all-Pending phase list, every consecutive pair
of reachable states moves each phase only along the permitted transitions
Pending → Running, Running → Complete, Running → Failed, or leaves it
unchanged — in particular Complete and Failed are terminal and no phase
re-enters Running. -/
theorem deploy_status_machine (env : Env) (phases : List Phase)
    (h : ∀ p ∈ phases, p.status = "⏳ Pending") :
    chainB (phases :: (deploy env phases).states) = true := by
  simpa [deploy] using runPhases_states_chain env phases [] h

/-- C6 witness: the state machine instantiated at the concrete four-phase
scenario. -/
theorem deploy_status_machine_witness :
    (∀ p ∈ phasesC1, p.status = "⏳ Pending") ∧
      chainB (phasesC1 :: (deploy envC1 phasesC1).states) = true :=
  ⟨by decide, deploy_status_machine envC1 phasesC1 (by decide)⟩

/-- C7: the process exit code of a run is 0 when the runner succeeds for
every phase, and 1 — the argument of `exit(1)` at the first failure —
otherwise. -/
theorem deploy_exit_code (env : Env) (phases : List Phase) :
    (deploy env phases).exitCode = if phases.all (phaseOk env) then 0 else 1 := by
  simpa [deploy] using runPhases_exit env phases []

/-- C10: a run mutates only status fields — the name and script of every
phase, and the length and order of the phase list, are the same at the
end of the run as at the start. -/
theorem deploy_frame (env : Env) (phases : List Phase) :
    (deploy env phases).phases.map (fun p => (p.name, p.script)) =
        phases.map (fun p => (p.name, p.script)) ∧
      (deploy env phases).phases.length = phases.length := by
  have h : (deploy env phases).phases.map (fun p => (p.name, p.script)) =
      phases.map (fun p => (p.name, p.script)) := by
    simpa [deploy] using runPhases_frame env phases []
  refine ⟨h, ?_⟩
  have := congrArg List.length h
  simpa using this
